import Mathlib

/-!
Verification of the jamulus-json-rpc-api-gateway core (`src/server.mjs`)
against its design specification.

The development shallowly embeds the three stateful/algorithmic pieces of
the gateway:

* the JWT token authenticator (`createJwtVerifier(...).verify`, the payload
  validation chain of lines 150-184) together with its replay cache and the
  periodic sweep (`cleanupReplayCache`, lines 189-199);
* the backend RPC client (`createJamulusClient().request` with its inner
  `makeRequest` correlation loop, lines 64-103);
* the public-key material loader (`readPublicKey` / `isPemPublicKey`,
  lines 213-239).

Modelling conventions:

* JavaScript dynamic values are modelled by the inductive `JsonValue`;
  JS numbers are modelled as `Int` (token timestamps are integral seconds;
  fractional values play no role in the verified properties).
* JS `Map` objects are modelled as insertion-ordered association lists;
  `Map.set` updates in place or appends, `Map.get` finds the first match.
  JS `Map` key equality (SameValueZero) agrees with structural equality on
  primitive keys, which is what token `jti` values are; object identity of
  reference-typed keys is not modelled.
* Exceptions thrown by `verify` abort the call but leave the mutations the
  call already performed on the shared replay `Map` in place, so the
  embedding returns the final cache state alongside the `Except` result.
* The Ed25519 signature check, base64url decoding and JSON parsing of the
  token segments (lines 131-149) precede the payload validation chain and
  carry no replay-cache state; the verified claims all quantify over
  already-decoded payloads of validly signed tokens, so the embedding
  starts at line 150 with the decoded payload.
* Node's event-driven socket reads are modelled by a list of stream events
  consumed in order; a response promise that never resolves is modelled as
  the absent (`Option.none`) outcome.
-/

/-- A JavaScript/JSON value as manipulated by the gateway. Numbers are
modelled as integers (Unix-second timestamps). -/
inductive JsonValue where
  | null : JsonValue
  | bool (b : Bool) : JsonValue
  | num (n : Int) : JsonValue
  | str (s : String) : JsonValue
  | arr (elems : List JsonValue) : JsonValue
  | obj (fields : List (String × JsonValue)) : JsonValue

/-- JS `Map` key equality (SameValueZero) as observable by the verifier:
primitive values compare by value; arrays and objects compare by
*reference*, and since every `verify` call parses its payload freshly, a
reference-typed key never equals any key already stored in the cache, so
the comparison is modelled as `false` on non-primitive values. -/
def sameValueZero : JsonValue → JsonValue → Bool
  | JsonValue.null, JsonValue.null => true
  | JsonValue.bool a, JsonValue.bool b => a == b
  | JsonValue.num a, JsonValue.num b => a == b
  | JsonValue.str a, JsonValue.str b => a == b
  | _, _ => false

/-- JS truthiness of a possibly-undefined value (`Option.none` models
`undefined`): `undefined`, `null`, `false`, `0` and `""` are falsy. -/
def jsTruthy : Option JsonValue → Bool
  | none => false
  | some JsonValue.null => false
  | some (JsonValue.bool b) => b
  | some (JsonValue.num n) => n != 0
  | some (JsonValue.str s) => s != ""
  | some (JsonValue.arr _) => true
  | some (JsonValue.obj _) => true

/-- JS `ToNumber` coercion, restricted to the primitive values the model
carries; `Option.none` stands for `NaN`. Arrays and objects (which JS
coerces through `toString`) are modelled as `NaN`. -/
def jsToNumber : JsonValue → Option Int
  | JsonValue.num n => some n
  | JsonValue.null => some 0
  | JsonValue.bool b => some (bif b then 1 else 0)
  | JsonValue.str s => bif s.trim == "" then some 0 else s.trim.toInt?
  | JsonValue.arr _ => none
  | JsonValue.obj _ => none

/-- The JS comparison `v > now` for a possibly-undefined `v` against an
integer; any comparison involving `NaN` (or `undefined`) is false. -/
def jsGtNum (v : Option JsonValue) (now : Int) : Bool :=
  match v.bind jsToNumber with
  | some k => decide (now < k)
  | none => false

/-- The decoded JWT payload: each claim field is absent (`none`) or holds
an arbitrary JSON value, mirroring the untyped object returned by
`parseJwtSegment`. -/
structure JwtPayload where
  exp : Option JsonValue
  nbf : Option JsonValue
  jti : Option JsonValue
  method : Option JsonValue
  params : Option JsonValue

/-- `Map.prototype.get`: value of the first entry whose key matches under
SameValueZero, or `none` (JS `undefined`) when absent. -/
def mapGet (k : JsonValue) : List (JsonValue × Int) → Option Int
  | [] => none
  | (k₁, v₁) :: rest => if sameValueZero k₁ k then some v₁ else mapGet k rest

/-- `Map.prototype.set`: replace the value at an existing key in place, or
append a new entry at the end. -/
def mapSet (k : JsonValue) (v : Int) : List (JsonValue × Int) → List (JsonValue × Int)
  | [] => [(k, v)]
  | (k₁, v₁) :: rest =>
      if sameValueZero k₁ k then (k, v) :: rest else (k₁, v₁) :: mapSet k v rest

/-- The verifier's mutable state: the `usedJtis` map (`jti → exp`) and
`replayCacheState.lastCleanup`. -/
structure ReplayCacheState where
  usedJtis : List (JsonValue × Int)
  lastCleanup : Int

/-- `cleanupReplayCache` (server.mjs lines 189-199): if fewer than 60
seconds have elapsed since the last sweep, do nothing; otherwise delete
every entry whose recorded expiry satisfies `expiry <= now` and stamp the
sweep time. -/
def cleanupReplayCache (st : ReplayCacheState) (now : Int) : ReplayCacheState :=
  if now - st.lastCleanup < 60 then st
  else
    { usedJtis := st.usedJtis.filter (fun e => !decide (e.2 ≤ now)),
      lastCleanup := now }

/-- The validation failures of `verify`, one per `throw` site in the
payload validation chain (lines 152-183). The spec's error-class names
map to the thrown messages as follows: `ExpiredError` = "JWT expired",
`NotYetValidError` = "JWT not yet valid", `ReplayError` = "JWT has already
been used", `MethodMismatchError`-step failures = "JWT payload missing
method" / "JWT method mismatch", `PayloadShapeError` = "JWT params must be
an object"; `missingExp` / `missingJti` are the payload-shape throws for
the `exp` and `jti` claims. -/
inductive VerifyError where
  | missingExp : VerifyError
  | expired : VerifyError
  | notYetValid : VerifyError
  | missingJti : VerifyError
  | alreadyUsed : VerifyError
  | missingMethod : VerifyError
  | methodMismatch : VerifyError
  | paramsNotObject : VerifyError
deriving DecidableEq

/-- The guard `replayExpiration && replayExpiration > now` (line 166):
the looked-up value must be truthy (present and nonzero) and exceed `now`. -/
def replayHit (replayExpiration : Option Int) (now : Int) : Bool :=
  match replayExpiration with
  | some e => e != 0 && decide (now < e)
  | none => false

/-- The JS strict comparison `payload.method !== expectedMethod` negated:
true exactly when the field holds the string `expectedMethod`. -/
def jsStrictEqStr (v : Option JsonValue) (s : String) : Bool :=
  match v with
  | some (JsonValue.str t) => t == s
  | _ => false

/-- The `params` shape check (lines 176-181): absent is fine, otherwise
the value must be a non-null non-array object. -/
def paramsShapeOk : Option JsonValue → Bool
  | none => true
  | some (JsonValue.obj _) => true
  | some _ => false

/-- The checks of `verify` that run *after* `usedJtis.set` (server.mjs
lines 170-184): `method` must be truthy, strictly equal the expected
method string, and `params` (if present) must be a plain object; none of
them touches the replay cache. -/
def postChecks (p : JwtPayload) (expectedMethod : String) :
    Except VerifyError JwtPayload :=
  if !jsTruthy p.method then Except.error VerifyError.missingMethod
  else if !jsStrictEqStr p.method expectedMethod then
    Except.error VerifyError.methodMismatch
  else if !paramsShapeOk p.params then Except.error VerifyError.paramsNotObject
  else Except.ok p

/-- The payload validation chain of `verify` (server.mjs lines 150-184),
started after base64url decoding and Ed25519 signature verification
succeed: `exp` must be a number and in the future, `nbf` (if truthy) must
not exceed `now`, `jti` must be truthy; then the replay cache is swept
(`cleanupReplayCache`), a live cache hit on `jti` raises the replay error,
otherwise `jti → exp` is recorded *before* the `method` and `params`
checks (`postChecks`) run. The final cache state is returned on every
path because the JS code mutates a shared `Map`. -/
def verifyPayload (p : JwtPayload) (expectedMethod : String) (now : Int)
    (st : ReplayCacheState) : Except VerifyError JwtPayload × ReplayCacheState :=
  match p.exp with
  | some (JsonValue.num e) =>
    if e ≤ now then (Except.error VerifyError.expired, st)
    else if jsTruthy p.nbf && jsGtNum p.nbf now then
      (Except.error VerifyError.notYetValid, st)
    else if !jsTruthy p.jti then (Except.error VerifyError.missingJti, st)
    else
      let st₁ := cleanupReplayCache st now
      let jtiKey := p.jti.getD JsonValue.null
      if replayHit (mapGet jtiKey st₁.usedJtis) now then
        (Except.error VerifyError.alreadyUsed, st₁)
      else
        (postChecks p expectedMethod,
         { usedJtis := mapSet jtiKey e st₁.usedJtis,
           lastCleanup := st₁.lastCleanup })
  | _ => (Except.error VerifyError.missingExp, st)

/-- A JSON-RPC error object `\x7bcode, message\x7d`. -/
structure RpcErrorObj where
  code : Int
  message : String

/-- A backend JSON-RPC response frame. `result`/`error` mirror the JS
object members (`none` = member absent); an `error` member, when present,
is an object and hence truthy for the `if (authResult.error)` test. -/
structure RpcResponse where
  id : String
  result : Option JsonValue
  error : Option RpcErrorObj

/-- One event delivered by the ndjson parse stream: a parsed response
frame (`data` event) or a stream failure (`error` event). -/
inductive StreamEvent where
  | frame (r : RpcResponse) : StreamEvent
  | streamError : StreamEvent

/-- An outbound JSON-RPC envelope as written by `makeRequest`
(server.mjs line 79). -/
structure Envelope where
  jsonrpc : String
  method : String
  params : JsonValue
  id : String

/-- The failures of `createJamulusClient().request`: connection failure
(the `conn.on("error", reject)` path), a stream `error` event rejecting an
in-flight `makeRequest` promise, or the explicit
`Unable to authenticate: ...` throw (lines 94-98). -/
inductive ClientError where
  | transportFailure : ClientError
  | streamFailure : ClientError
  | authFailure (message : String) : ClientError

/-- The observable outcome of one `request` invocation: the completion
value (`none` when the awaited promise never resolves, in which case the
invocation never completes), the list of envelopes written to the socket,
whether a connection was opened, and whether `socket.end()` ran. -/
structure ClientOutcome where
  outcome : Option (Except ClientError RpcResponse)
  sent : List Envelope
  opened : Bool
  closed : Bool

/-- The correlation loop of `makeRequest` (server.mjs lines 80-90): the
`data` handler resolves the promise with the first frame whose `id`
strictly equals the request's `id`, ignoring every other frame; an
`error` event rejects the promise. Returns the resolution together with
the events not yet consumed, or `none` when the event list is exhausted
with the promise still pending. -/
def awaitResponse (id : String) : List StreamEvent →
    Option (Except Unit RpcResponse × List StreamEvent)
  | [] => none
  | StreamEvent.frame r :: rest =>
      if r.id == id then some (Except.ok r, rest) else awaitResponse id rest
  | StreamEvent.streamError :: rest => some (Except.error (), rest)

/-- The auth envelope sent first on every connection (lines 91-93). -/
def authEnvelope (secret : String) (authId : String) : Envelope :=
  { jsonrpc := "2.0", method := "jamulus/apiAuth",
    params := JsonValue.obj [("secret", JsonValue.str secret)], id := authId }

/-- `createJamulusClient().request` (server.mjs lines 64-103): connect,
then inside `try ... finally socket.end()`: send the auth envelope and
await its response; if that response carries an `error` member, throw
`Unable to authenticate: <message>`; otherwise send the caller's envelope
and return its matching response verbatim. `connectOk` models whether the
`net.connect` promise resolves; `authId`/`mainId` model the two
`randomUUID()` draws; `events` is the sequence the parse stream emits. -/
def clientRequest (connectOk : Bool) (events : List StreamEvent)
    (authId mainId : String) (method : String) (params : JsonValue)
    (secret : String) : ClientOutcome :=
  if !connectOk then
    { outcome := some (Except.error ClientError.transportFailure),
      sent := [], opened := false, closed := false }
  else
    match awaitResponse authId events with
    | none =>
        { outcome := none, sent := [authEnvelope secret authId],
          opened := true, closed := false }
    | some (Except.error _, _) =>
        { outcome := some (Except.error ClientError.streamFailure),
          sent := [authEnvelope secret authId], opened := true, closed := true }
    | some (Except.ok authResult, rest) =>
        match authResult.error with
        | some err =>
            { outcome := some (Except.error (ClientError.authFailure
                ("Unable to authenticate: " ++ err.message))),
              sent := [authEnvelope secret authId], opened := true, closed := true }
        | none =>
            let mainEnv : Envelope :=
              { jsonrpc := "2.0", method := method, params := params, id := mainId }
            match awaitResponse mainId rest with
            | none =>
                { outcome := none, sent := [authEnvelope secret authId, mainEnv],
                  opened := true, closed := false }
            | some (Except.error _, _) =>
                { outcome := some (Except.error ClientError.streamFailure),
                  sent := [authEnvelope secret authId, mainEnv],
                  opened := true, closed := true }
            | some (Except.ok resp, _) =>
                { outcome := some (Except.ok resp),
                  sent := [authEnvelope secret authId, mainEnv],
                  opened := true, closed := true }

/-- JS whitespace as removed by `String.prototype.trim` (the characters
that occur in key material: space, tab, and line terminators). -/
def isJsWhitespace (c : Char) : Bool :=
  c == ' ' || c == '\t' || c == '\n' || c == '\r' ||
  c == '\x0b' || c == '\x0c'

/-- JS `String.prototype.trim`, computed structurally over the character
list so that concrete instances evaluate inside the kernel. -/
def jsTrim (s : String) : String :=
  String.mk (((s.data.dropWhile isJsWhitespace).reverse.dropWhile
    isJsWhitespace).reverse)

/-- List prefix test by character equality. -/
def hasPrefixChars : List Char → List Char → Bool
  | [], _ => true
  | _ :: _, [] => false
  | a :: as, b :: bs => a == b && hasPrefixChars as bs

/-- JS `String.prototype.startsWith`. -/
def jsStartsWith (s pre : String) : Bool :=
  hasPrefixChars pre.data s.data

/-- JS `String.prototype.endsWith`. -/
def jsEndsWith (s post : String) : Bool :=
  hasPrefixChars post.data.reverse s.data.reverse

/-- `isPemPublicKey` (server.mjs lines 236-240): the trimmed content must
match `^-----BEGIN PUBLIC KEY-----[\s\S]+-----END PUBLIC KEY-----$`, i.e.
start with the BEGIN marker, end with the END marker, with at least one
character in between. -/
def isPemPublicKey (content : String) : Bool :=
  let t := jsTrim content
  jsStartsWith t "-----BEGIN PUBLIC KEY-----" &&
  jsEndsWith t "-----END PUBLIC KEY-----" &&
  decide ("-----BEGIN PUBLIC KEY-----".length + "-----END PUBLIC KEY-----".length
    < t.length)

/-- The two `throw` sites of `readPublicKey`: `fileNotPem` is
`JWT_PUBLIC_KEY file must contain a PEM public key` (the file source),
`invalidFormat` is `Invalid JWT_PUBLIC_KEY format` (the inline source). -/
inductive KeyFormatError where
  | fileNotPem : KeyFormatError
  | invalidFormat : KeyFormatError
deriving DecidableEq

/-- `readPublicKey` (server.mjs lines 213-234). `fileSystem` models
`path.isAbsolute`-guarded `fs.existsSync`/`fs.readFileSync` (a path is
absolute when it starts with `/`; `some` means the file exists with the
given content); `b64decode` models `Buffer.from(_, "base64").toString`,
which never throws. If the trimmed input is an absolute path to an
existing file, the trimmed file content must itself be PEM — nothing else
is attempted on it; otherwise the trimmed input is accepted as inline PEM,
then as base64 whose decode trims to PEM, and otherwise rejected. -/
def readPublicKey (fileSystem : String → Option String)
    (b64decode : String → String) (value : String) :
    Except KeyFormatError String :=
  let trimmed := jsTrim value
  match (if jsStartsWith trimmed "/" then fileSystem trimmed else none) with
  | some raw =>
      let fileContent := jsTrim raw
      if !isPemPublicKey fileContent then Except.error KeyFormatError.fileNotPem
      else Except.ok fileContent
  | none =>
      if isPemPublicKey trimmed then Except.ok trimmed
      else
        let decoded := jsTrim (b64decode trimmed)
        if isPemPublicKey decoded then Except.ok decoded
        else Except.error KeyFormatError.invalidFormat

/-- The tagged parse outcome of the key loader as the specification's
design notes describe it (a sum type resolved by a fixed attempt order),
restricted to the variants the code supports. -/
inductive KeySource where
  | filePem (pem : String) : KeySource
  | inlinePem (pem : String) : KeySource
  | base64Pem (pem : String) : KeySource

/-- The PEM text carried by a resolved key source. -/
def KeySource.pem : KeySource → String
  | KeySource.filePem p => p
  | KeySource.inlinePem p => p
  | KeySource.base64Pem p => p

/-- The key loader as the amended specification describes it, written
independently of `readPublicKey` as a fixed-order list of attempts with
first match winning: (a) an absolute path to an existing file, whose
trimmed contents must themselves be inline PEM (no re-interpretation),
failing with the file-source error otherwise; (b) inline PEM text;
(c) base64 text whose decode trims to PEM; no JSON Web Key support; if
nothing matches, the inline-source error. -/
def resolveKeySource (fileSystem : String → Option String)
    (b64decode : String → String) (value : String) :
    Except KeyFormatError KeySource :=
  let t := jsTrim value
  if h : jsStartsWith t "/" ∧ (fileSystem t).isSome then
    let raw := jsTrim ((fileSystem t).get h.2)
    if isPemPublicKey raw then Except.ok (KeySource.filePem raw)
    else Except.error KeyFormatError.fileNotPem
  else if isPemPublicKey t then Except.ok (KeySource.inlinePem t)
  else if isPemPublicKey (jsTrim (b64decode t)) then
    Except.ok (KeySource.base64Pem (jsTrim (b64decode t)))
  else Except.error KeyFormatError.invalidFormat

/-- Outcomes of `verify` that got past the replay-recording step (line
169): success, or one of the failures thrown *after* `usedJtis.set`. -/
def passedReplay : Except VerifyError JwtPayload → Bool
  | Except.ok _ => true
  | Except.error VerifyError.missingMethod => true
  | Except.error VerifyError.methodMismatch => true
  | Except.error VerifyError.paramsNotObject => true
  | Except.error _ => false

/-- Replay-cache states reachable from the verifier's initial state
(`new Map()`, `lastCleanup: 0`) by any sequence of `verify` calls at
nonnegative wall-clock seconds (`Math.floor(Date.now() / 1000) ≥ 0`). -/
inductive ReachableState : ReplayCacheState → Prop where
  | init : ReachableState { usedJtis := [], lastCleanup := 0 }
  | step (st : ReplayCacheState) (p : JwtPayload) (m : String) (now : Int) :
      ReachableState st → 0 ≤ now → ReachableState (verifyPayload p m now st).2

/-- Keys of an association list are pairwise distinct under SameValueZero
(no later entry's key matches an earlier entry's key) — the invariant a
JS `Map`'s entry list maintains by construction. -/
def distinctKeys (l : List (JsonValue × Int)) : Prop :=
  l.Pairwise (fun a b => sameValueZero b.1 a.1 = false)

/-- A concrete auth success frame (id `A`) for instantiating the client
properties. -/
def authOkFrame : RpcResponse :=
  { id := "A", result := some (JsonValue.bool true), error := none }

/-- A concrete backend JSON-RPC error response to the caller's envelope
(id `X`) — an error carried as data. -/
def mainErrFrame : RpcResponse :=
  { id := "X", result := none,
    error := some { code := -32601, message := "method not found" } }

/-- A concrete auth rejection frame (id `A`, message `bad secret`). -/
def badSecretFrame : RpcResponse :=
  { id := "A", result := none,
    error := some { code := -32000, message := "bad secret" } }

/-- A concrete stray frame whose id `B` matches no outstanding envelope. -/
def strayFrame : RpcResponse :=
  { id := "B", result := some (JsonValue.str "stray"), error := none }

/-- A concrete success frame for the caller's envelope (id `X`). -/
def mainOkFrame : RpcResponse :=
  { id := "X", result := some (JsonValue.obj [("mode", JsonValue.str "server")]),
    error := none }

/-- A concrete PEM public-key text. -/
def samplePem : String :=
  "-----BEGIN PUBLIC KEY-----\nMCowBQYDK2VwAyEA\n-----END PUBLIC KEY-----"

/-- The base64 encoding of `samplePem` (exactly what `base64` produces). -/
def samplePemBase64 : String :=
  "LS0tLS1CRUdJTiBQVUJMSUMgS0VZLS0tLS0KTUNvd0JRWURLMlZ3QXlFQQotLS0tLUVORCBQVUJMSUMgS0VZLS0tLS0="

/-- A file system holding one file, `/key`, whose content is the base64
text of `samplePem`. -/
def keyFileSystem : String → Option String :=
  fun s => if s = "/key" then some samplePemBase64 else none

/-- The base64 decoder (`Buffer.from(_, "base64").toString`) restricted to
the inputs exercised here: it decodes `samplePemBase64` to `samplePem`,
and models every other decode as an empty, non-PEM result (base64-decoding
JSON text yields non-PEM bytes; the decoder never throws). -/
def sampleB64Decode : String → String :=
  fun s => if s = samplePemBase64 then samplePem else ""

/-- A concrete JSON Web Key structure, as the spec's loader variant (d)
would receive it. -/
def sampleJwk : String :=
  "\x7b\"kty\":\"OKP\",\"crv\":\"Ed25519\",\"x\":\"AbCdEf\"\x7d"

/-- A well-formed token payload (string `jti`, numeric `exp`, string
`method`, no `nbf`, no `params`) used to instantiate the verified
properties on concrete inputs. -/
def samplePayload (jti : String) (e : Int) (method : String) : JwtPayload :=
  { exp := some (JsonValue.num e), nbf := none,
    jti := some (JsonValue.str jti),
    method := some (JsonValue.str method), params := none }

/-- SameValueZero agreement implies structural equality (the converse
fails only for reference-typed values, which never agree). -/
theorem sameValueZero_eq {a b : JsonValue} (h : sameValueZero a b = true) :
    a = b := by
  cases a <;> cases b <;> simp_all [sameValueZero]

/-- SameValueZero is reflexive on strings. -/
theorem sameValueZero_str_refl (s : String) :
    sameValueZero (JsonValue.str s) (JsonValue.str s) = true := by
  simp [sameValueZero]

/-- Looking up a key just written by `Map.set` yields the written value,
for any key that matches itself under SameValueZero. -/
theorem mapGet_mapSet_self (k : JsonValue) (v : Int)
    (l : List (JsonValue × Int)) (hk : sameValueZero k k = true) :
    mapGet k (mapSet k v l) = some v := by
  induction l with
  | nil => simp [mapGet, mapSet, hk]
  | cons a rest ih =>
      by_cases h : sameValueZero a.1 k = true
      · simp [mapGet, mapSet, h, hk]
      · simp only [Bool.not_eq_true] at h
        simp [mapGet, mapSet, h, ih]

/-- A lookup that hits an entry whose value the sweep predicate keeps
still hits it, with the same value, after filtering. -/
theorem mapGet_filter_of_kept (k : JsonValue) (v : Int) (q : Int → Bool)
    (l : List (JsonValue × Int)) (hget : mapGet k l = some v)
    (hq : q v = true) :
    mapGet k (l.filter (fun e => q e.2)) = some v := by
  induction l with
  | nil => simp [mapGet] at hget
  | cons a rest ih =>
      by_cases h : sameValueZero a.1 k = true
      · simp only [mapGet, h, if_true, Option.some.injEq] at hget
        subst hget
        simp [List.filter_cons, hq, mapGet, h]
      · simp only [Bool.not_eq_true] at h
        simp only [mapGet, h, Bool.false_eq_true, if_false] at hget
        by_cases hk : q a.2 = true
        · simp [List.filter_cons, hk, mapGet, h, ih hget]
        · simp only [Bool.not_eq_true] at hk
          simp [List.filter_cons, hk, ih hget]

/-- A key absent from the map stays absent after filtering. -/
theorem mapGet_filter_of_none (k : JsonValue) (q : Int → Bool)
    (l : List (JsonValue × Int)) (hget : mapGet k l = none) :
    mapGet k (l.filter (fun e => q e.2)) = none := by
  induction l with
  | nil => simp [mapGet]
  | cons a rest ih =>
      by_cases h : sameValueZero a.1 k = true
      · simp [mapGet, h] at hget
      · simp only [Bool.not_eq_true] at h
        simp only [mapGet, h, Bool.false_eq_true, if_false] at hget
        by_cases hk : q a.2 = true
        · simp [List.filter_cons, hk, mapGet, h, ih hget]
        · simp only [Bool.not_eq_true] at hk
          simp [List.filter_cons, hk, ih hget]

/-- If no entry's key matches `k`, the lookup misses. -/
theorem mapGet_eq_none_of_all_miss (k : JsonValue)
    (l : List (JsonValue × Int))
    (h : ∀ a ∈ l, sameValueZero a.1 k = false) :
    mapGet k l = none := by
  induction l with
  | nil => simp [mapGet]
  | cons a rest ih =>
      have ha := h a (List.mem_cons_self a rest)
      simp only [mapGet, ha, Bool.false_eq_true, if_false]
      exact ih (fun b hb => h b (List.mem_cons_of_mem a hb))

/-- In a map with distinct keys, an entry dropped by the sweep predicate
leaves no match behind for its key. -/
theorem mapGet_filter_of_dropped (k : JsonValue) (v : Int) (q : Int → Bool)
    (l : List (JsonValue × Int)) (hdk : distinctKeys l)
    (hget : mapGet k l = some v) (hq : q v = false) :
    mapGet k (l.filter (fun e => q e.2)) = none := by
  induction l with
  | nil => simp [mapGet] at hget
  | cons a rest ih =>
      rw [distinctKeys, List.pairwise_cons] at hdk
      obtain ⟨hhead, htail⟩ := hdk
      by_cases h : sameValueZero a.1 k = true
      · simp only [mapGet, h, if_true, Option.some.injEq] at hget
        subst hget
        have hak : a.1 = k := sameValueZero_eq h
        have hrest : mapGet k rest = none := by
          apply mapGet_eq_none_of_all_miss
          intro b hb
          have := hhead b hb
          rwa [hak] at this
        simp [List.filter_cons, hq, mapGet_filter_of_none k q rest hrest]
      · simp only [Bool.not_eq_true] at h
        simp only [mapGet, h, Bool.false_eq_true, if_false] at hget
        by_cases hk : q a.2 = true
        · simp [List.filter_cons, hk, mapGet, h, ih htail hget]
        · simp only [Bool.not_eq_true] at hk
          simp [List.filter_cons, hk, ih htail hget]

/-- Every entry after a `Map.set` is the written pair or an original one. -/
theorem mapSet_entries (k : JsonValue) (v : Int)
    (l : List (JsonValue × Int)) :
    ∀ a ∈ mapSet k v l, a = (k, v) ∨ a ∈ l := by
  induction l with
  | nil => simp [mapSet]
  | cons b rest ih =>
      intro a ha
      by_cases h : sameValueZero b.1 k = true
      · simp only [mapSet, h, if_true] at ha
        rcases List.mem_cons.mp ha with h₁ | h₁
        · exact Or.inl h₁
        · exact Or.inr (List.mem_cons_of_mem b h₁)
      · simp only [Bool.not_eq_true] at h
        simp only [mapSet, h, Bool.false_eq_true, if_false] at ha
        rcases List.mem_cons.mp ha with h₁ | h₁
        · exact Or.inr (h₁ ▸ List.mem_cons_self b rest)
        · rcases ih a h₁ with h₂ | h₂
          · exact Or.inl h₂
          · exact Or.inr (List.mem_cons_of_mem b h₂)

/-- The sweep never invents or rewrites entries: its output is a sublist
of its input (it can only delete). -/
theorem cleanup_sublist (st : ReplayCacheState) (t : Int) :
    ((cleanupReplayCache st t).usedJtis).Sublist st.usedJtis := by
  unfold cleanupReplayCache
  by_cases h : t - st.lastCleanup < 60
  · simp [h]
  · simp [h, List.filter_sublist]

/-- A live entry (recorded expiry still in the future) survives the
sweep, whether or not the sweep runs. -/
theorem mapGet_cleanup_of_live (k : JsonValue) (v : Int)
    (st : ReplayCacheState) (t : Int)
    (hget : mapGet k st.usedJtis = some v) (hlive : t < v) :
    mapGet k (cleanupReplayCache st t).usedJtis = some v := by
  unfold cleanupReplayCache
  by_cases h : t - st.lastCleanup < 60
  · rw [if_pos h]; exact hget
  · rw [if_neg h]
    exact mapGet_filter_of_kept k v (fun x => !decide (x ≤ t)) st.usedJtis hget
      (by simp [not_le.mpr hlive])

/-- An absent key stays absent across the sweep. -/
theorem mapGet_cleanup_of_none (k : JsonValue) (st : ReplayCacheState)
    (t : Int) (hget : mapGet k st.usedJtis = none) :
    mapGet k (cleanupReplayCache st t).usedJtis = none := by
  unfold cleanupReplayCache
  by_cases h : t - st.lastCleanup < 60
  · rw [if_pos h]; exact hget
  · rw [if_neg h]
    exact mapGet_filter_of_none k (fun x => !decide (x ≤ t)) st.usedJtis hget

/-- A stale entry (recorded expiry at or before `now`) can never produce
a replay hit after the sweep step runs, whether or not it actually swept:
either the entry is deleted, or its expiry fails the `> now` guard. -/
theorem replayHit_cleanup_of_stale (k : JsonValue) (v : Int)
    (st : ReplayCacheState) (t : Int) (hdk : distinctKeys st.usedJtis)
    (hget : mapGet k st.usedJtis = some v) (hstale : v ≤ t) :
    replayHit (mapGet k (cleanupReplayCache st t).usedJtis) t = false := by
  unfold cleanupReplayCache
  by_cases h : t - st.lastCleanup < 60
  · rw [if_pos h, hget]
    simp [replayHit, not_lt.mpr hstale]
  · rw [if_neg h]
    have hnone : mapGet k (st.usedJtis.filter (fun e => !decide (e.2 ≤ t))) = none :=
      mapGet_filter_of_dropped k v (fun x => !decide (x ≤ t)) st.usedJtis hdk hget
        (by simp [hstale])
    rw [hnone]
    rfl

/-- The `nbf` guard (line 158) is monotone in time: once a token is past
its not-before instant it stays past it. -/
theorem nbfGuard_mono (v : Option JsonValue) (now t : Int)
    (h : (jsTruthy v && jsGtNum v now) = false) (hmono : now ≤ t) :
    (jsTruthy v && jsGtNum v t) = false := by
  rcases Bool.and_eq_false_iff.mp h with h₁ | h₁
  · simp [h₁]
  · apply Bool.and_eq_false_iff.mpr
    right
    unfold jsGtNum at h₁ ⊢
    rcases hv : v.bind jsToNumber with _ | n
    · simp
    · rw [hv] at h₁
      simp only [decide_eq_false_iff_not, not_lt] at h₁ ⊢
      exact le_trans h₁ hmono

/-- Every outcome of the post-replay checks is a post-replay outcome. -/
theorem passedReplay_postChecks (p : JwtPayload) (m : String) :
    passedReplay (postChecks p m) = true := by
  rcases Bool.eq_false_or_eq_true (jsTruthy p.method) with h1 | h1 <;>
  rcases Bool.eq_false_or_eq_true (jsStrictEqStr p.method m) with h2 | h2 <;>
  rcases Bool.eq_false_or_eq_true (paramsShapeOk p.params) with h3 | h3 <;>
  simp [postChecks, passedReplay, h1, h2, h3]

/-- When a payload passes the `exp`, `nbf` and `jti` checks, `verify`
reduces to the sweep, the replay decision, and (on a miss) the recording
of `jti → exp` followed by the post-replay checks. -/
theorem verifyPayload_reach (p : JwtPayload) (m : String) (now : Int)
    (st : ReplayCacheState) (e : Int)
    (hexp : p.exp = some (JsonValue.num e)) (h1 : ¬ e ≤ now)
    (h2 : (jsTruthy p.nbf && jsGtNum p.nbf now) = false)
    (h3 : jsTruthy p.jti = true) :
    verifyPayload p m now st =
      if replayHit (mapGet (p.jti.getD JsonValue.null)
          (cleanupReplayCache st now).usedJtis) now then
        (Except.error VerifyError.alreadyUsed, cleanupReplayCache st now)
      else
        (postChecks p m,
         { usedJtis := mapSet (p.jti.getD JsonValue.null) e
             (cleanupReplayCache st now).usedJtis,
           lastCleanup := (cleanupReplayCache st now).lastCleanup }) := by
  simp only [verifyPayload, hexp, h2, h3, if_neg h1, Bool.false_eq_true, if_false,
    Bool.not_true, Bool.not_false, Bool.true_eq_false]

/-- A `verify` outcome that got past the replay-recording step pins down
the whole call: the payload passed the `exp`, `nbf` and `jti` checks, the
replay lookup missed, `jti → exp` was recorded, and the result is exactly
the post-replay checks' verdict. -/
theorem verifyPayload_passedReplay (p : JwtPayload) (m : String) (now : Int)
    (st : ReplayCacheState)
    (h : passedReplay (verifyPayload p m now st).1 = true) :
    ∃ e, p.exp = some (JsonValue.num e) ∧ now < e ∧
      jsTruthy p.jti = true ∧ (jsTruthy p.nbf && jsGtNum p.nbf now) = false ∧
      verifyPayload p m now st =
        (postChecks p m,
         { usedJtis := mapSet (p.jti.getD JsonValue.null) e
             (cleanupReplayCache st now).usedJtis,
           lastCleanup := (cleanupReplayCache st now).lastCleanup }) := by
  rcases hexp : p.exp with _ | v
  · simp [verifyPayload, hexp, passedReplay] at h
  · rcases v with _ | b | e | s | xs | fs
    case num =>
      by_cases h1 : e ≤ now
      · simp [verifyPayload, hexp, if_pos h1, passedReplay] at h
      · by_cases h2 : (jsTruthy p.nbf && jsGtNum p.nbf now) = true
        · simp [verifyPayload, hexp, if_neg h1, h2, passedReplay] at h
        · rw [Bool.not_eq_true] at h2
          by_cases h3 : jsTruthy p.jti = true
          · rw [verifyPayload_reach p m now st e hexp h1 h2 h3] at h ⊢
            by_cases h4 : replayHit (mapGet (p.jti.getD JsonValue.null)
                (cleanupReplayCache st now).usedJtis) now = true
            · simp [if_pos h4, passedReplay] at h
            · rw [Bool.not_eq_true] at h4
              refine ⟨e, rfl, not_le.mp h1, h3, h2, ?_⟩
              simp [h4]
          · rw [Bool.not_eq_true] at h3
            simp [verifyPayload, hexp, if_neg h1, h2, h3, passedReplay] at h
    all_goals simp [verifyPayload, hexp, passedReplay] at h

/-- Any `verify` call leaves the cache untouched, merely swept, or swept
with one `jti → exp` recording whose expiry exceeds the call's `now`. -/
theorem verifyPayload_state_cases (p : JwtPayload) (m : String) (now : Int)
    (st : ReplayCacheState) :
    (verifyPayload p m now st).2 = st ∨
    (verifyPayload p m now st).2 = cleanupReplayCache st now ∨
    ∃ k e, p.exp = some (JsonValue.num e) ∧ now < e ∧
      (verifyPayload p m now st).2 =
        { usedJtis := mapSet k e (cleanupReplayCache st now).usedJtis,
          lastCleanup := (cleanupReplayCache st now).lastCleanup } := by
  rcases hexp : p.exp with _ | v
  · left; simp [verifyPayload, hexp]
  · rcases v with _ | b | e | s | xs | fs
    case num =>
      by_cases h1 : e ≤ now
      · left; simp [verifyPayload, hexp, if_pos h1]
      · by_cases h2 : (jsTruthy p.nbf && jsGtNum p.nbf now) = true
        · left; simp [verifyPayload, hexp, if_neg h1, h2]
        · rw [Bool.not_eq_true] at h2
          by_cases h3 : jsTruthy p.jti = true
          · rw [verifyPayload_reach p m now st e hexp h1 h2 h3]
            by_cases h4 : replayHit (mapGet (p.jti.getD JsonValue.null)
                (cleanupReplayCache st now).usedJtis) now = true
            · right; left; simp [if_pos h4]
            · right; right
              exact ⟨p.jti.getD JsonValue.null, e, rfl, not_le.mp h1,
                by simp [h4]⟩
          · rw [Bool.not_eq_true] at h3
            left; simp [verifyPayload, hexp, if_neg h1, h2, h3]
    all_goals (left; simp [verifyPayload, hexp])

/-- Claim C1: the specification requires `verify` to reject any token
whose `exp` exceeds `now` by more than the fixed future-cap before any
replay-cache entry is recorded, and the repository's acceptance test
`rejects JWT exp too far in future` asserts rejection (message
`exp too far`) at `exp = now + 600`. The code has no such check:
evaluated at exactly that failing input, `verify` accepts the token and
records its `jti → exp` in the replay cache. -/
theorem verify_accepts_far_future_exp :
    verifyPayload
      { exp := some (JsonValue.num 1600), nbf := none,
        jti := some (JsonValue.str "far-future-jti"),
        method := some (JsonValue.str "jamulus/getMode"),
        params := some (JsonValue.obj []) }
      "jamulus/getMode" 1000 { usedJtis := [], lastCleanup := 0 } =
    (Except.ok
      { exp := some (JsonValue.num 1600), nbf := none,
        jti := some (JsonValue.str "far-future-jti"),
        method := some (JsonValue.str "jamulus/getMode"),
        params := some (JsonValue.obj []) },
     { usedJtis := [(JsonValue.str "far-future-jti", 1600)],
       lastCleanup := 1000 }) := by
  rfl

/-- Claim C2: a token whose verification at time `now` got past the
replay-recording step — whether it then succeeded or failed one of the
later `method`/`params` checks — has its `jti` consumed: re-verifying the
same token at any time `now' ≥ now` still inside its `exp` window fails
with the replay error, against any expected method. -/
theorem verify_second_use_rejected (p : JwtPayload) (m m' : String)
    (now now' : Int) (st : ReplayCacheState) (j : String) (e : Int)
    (hjti : p.jti = some (JsonValue.str j))
    (hexp : p.exp = some (JsonValue.num e))
    (hfirst : passedReplay (verifyPayload p m now st).1 = true)
    (hnow : 0 ≤ now) (hmono : now ≤ now') (hwin : now' < e) :
    (verifyPayload p m' now' (verifyPayload p m now st).2).1 =
      Except.error VerifyError.alreadyUsed := by
  obtain ⟨e₀, hexp₀, hlt, hjt, hnbf, heq⟩ :=
    verifyPayload_passedReplay p m now st hfirst
  have he : e = e₀ := by
    rw [hexp] at hexp₀
    exact JsonValue.num.inj (Option.some.inj hexp₀)
  subst he
  have hkey : p.jti.getD JsonValue.null = JsonValue.str j := by rw [hjti]; rfl
  have hst2 : (verifyPayload p m now st).2 =
      { usedJtis := mapSet (JsonValue.str j) e (cleanupReplayCache st now).usedJtis,
        lastCleanup := (cleanupReplayCache st now).lastCleanup } := by
    rw [heq, hkey]
  rw [hst2]
  have h1' : ¬ e ≤ now' := not_le.mpr hwin
  have h2' : (jsTruthy p.nbf && jsGtNum p.nbf now') = false :=
    nbfGuard_mono p.nbf now now' hnbf hmono
  rw [verifyPayload_reach p m' now' _ e hexp h1' h2' hjt]
  rw [hkey]
  have hget : mapGet (JsonValue.str j)
      (mapSet (JsonValue.str j) e (cleanupReplayCache st now).usedJtis) = some e :=
    mapGet_mapSet_self (JsonValue.str j) e _ (sameValueZero_str_refl j)
  have hlive := mapGet_cleanup_of_live (JsonValue.str j) e
    { usedJtis := mapSet (JsonValue.str j) e (cleanupReplayCache st now).usedJtis,
      lastCleanup := (cleanupReplayCache st now).lastCleanup } now' hget hwin
  rw [hlive]
  have hne : e ≠ 0 := by omega
  have hhit : replayHit (some e) now' = true := by
    simp [replayHit, hne, hwin]
  rw [hhit, if_pos rfl]

/-- Witness for claim C2 at a concrete input: a fresh well-formed token
verified successfully at `now = 1000`, then re-verified at `now = 1100`
(inside its `exp = 1200` window), fails with the replay error. -/
theorem verify_second_use_rejected_witness :
    passedReplay (verifyPayload (samplePayload "c2-jti" 1200 "jamulus/getMode")
      "jamulus/getMode" 1000 { usedJtis := [], lastCleanup := 0 }).1 = true ∧
    (verifyPayload (samplePayload "c2-jti" 1200 "jamulus/getMode")
      "jamulus/getMode" 1100
      (verifyPayload (samplePayload "c2-jti" 1200 "jamulus/getMode")
        "jamulus/getMode" 1000 { usedJtis := [], lastCleanup := 0 }).2).1 =
      Except.error VerifyError.alreadyUsed :=
  ⟨rfl,
   verify_second_use_rejected (samplePayload "c2-jti" 1200 "jamulus/getMode")
     "jamulus/getMode" "jamulus/getMode" 1000 1100
     { usedJtis := [], lastCleanup := 0 } "c2-jti" 1200 rfl rfl rfl
     (by norm_num) (by norm_num) (by norm_num)⟩

/-- Claim C6: a validly signed, unexpired token with a fresh `jti` whose
`method` field does not hold exactly the expected method string (absent,
non-string, or a different string) is rejected in the method-binding step:
`verify` fails with the missing-method error (field falsy) or the
method-mismatch error (field present but not strictly equal) — both
rejections of the specification's `MethodMismatchError` step. -/
theorem verify_method_binding (p : JwtPayload) (expectedMethod : String)
    (now : Int) (st : ReplayCacheState) (e : Int)
    (hexp : p.exp = some (JsonValue.num e)) (hunexp : now < e)
    (hnbf : (jsTruthy p.nbf && jsGtNum p.nbf now) = false)
    (hjti : jsTruthy p.jti = true)
    (hfresh : mapGet (p.jti.getD JsonValue.null) st.usedJtis = none)
    (hmismatch : jsStrictEqStr p.method expectedMethod = false) :
    (verifyPayload p expectedMethod now st).1 =
      Except.error VerifyError.missingMethod ∨
    (verifyPayload p expectedMethod now st).1 =
      Except.error VerifyError.methodMismatch := by
  rw [verifyPayload_reach p expectedMethod now st e hexp (not_le.mpr hunexp)
    hnbf hjti]
  have hnone := mapGet_cleanup_of_none (p.jti.getD JsonValue.null) st now hfresh
  rw [hnone, show replayHit none now = false from rfl,
    if_neg Bool.false_ne_true]
  rcases Bool.eq_false_or_eq_true (jsTruthy p.method) with hm | hm
  · right
    show postChecks p expectedMethod = Except.error VerifyError.methodMismatch
    simp [postChecks, hm, hmismatch]
  · left
    show postChecks p expectedMethod = Except.error VerifyError.missingMethod
    simp [postChecks, hm]

/-- Witness for claim C6 at a concrete input: a fresh valid token bound to
`jamulus/getVersion` presented against `jamulus/getMode` is rejected in
the method-binding step. -/
theorem verify_method_binding_witness :
    jsStrictEqStr (samplePayload "c6-jti" 1200 "jamulus/getVersion").method
      "jamulus/getMode" = false ∧
    ((verifyPayload (samplePayload "c6-jti" 1200 "jamulus/getVersion")
        "jamulus/getMode" 1000 { usedJtis := [], lastCleanup := 0 }).1 =
      Except.error VerifyError.missingMethod ∨
     (verifyPayload (samplePayload "c6-jti" 1200 "jamulus/getVersion")
        "jamulus/getMode" 1000 { usedJtis := [], lastCleanup := 0 }).1 =
      Except.error VerifyError.methodMismatch) :=
  ⟨rfl,
   verify_method_binding (samplePayload "c6-jti" 1200 "jamulus/getVersion")
     "jamulus/getMode" 1000 { usedJtis := [], lastCleanup := 0 } 1200
     rfl (by norm_num) rfl rfl rfl rfl⟩

/-- Claim C9: a replay-cache entry whose recorded expiry has passed
(`eOld ≤ now`) never causes the replay error for a new otherwise-valid
token reusing the same `jti`, even if the sweep has not yet removed the
stale entry: either the sweep runs and deletes it, or the lookup hits it
and the `> now` guard fails. Replay protection is bounded by the recorded
`exp`, not by cache retention. -/
theorem verify_stale_jti_not_replay (p : JwtPayload) (m : String) (now : Int)
    (st : ReplayCacheState) (e eOld : Int)
    (hdk : distinctKeys st.usedJtis)
    (hexp : p.exp = some (JsonValue.num e)) (hunexp : now < e)
    (hnbf : (jsTruthy p.nbf && jsGtNum p.nbf now) = false)
    (hjti : jsTruthy p.jti = true)
    (hstaleEntry : mapGet (p.jti.getD JsonValue.null) st.usedJtis = some eOld)
    (hstale : eOld ≤ now) :
    (verifyPayload p m now st).1 ≠ Except.error VerifyError.alreadyUsed := by
  rw [verifyPayload_reach p m now st e hexp (not_le.mpr hunexp) hnbf hjti]
  have hmiss := replayHit_cleanup_of_stale (p.jti.getD JsonValue.null) eOld
    st now hdk hstaleEntry hstale
  rw [hmiss, if_neg Bool.false_ne_true]
  intro hc
  have hc' : postChecks p m = Except.error VerifyError.alreadyUsed := hc
  have hp := passedReplay_postChecks p m
  rw [hc'] at hp
  simp [passedReplay] at hp

/-- Witness for claim C9 at a concrete input: the cache still holds
`c9-jti → 900` at `now = 1000` (stale, not yet swept because the last
sweep was 970); verifying a fresh valid token reusing `c9-jti` does not
fail with the replay error. -/
theorem verify_stale_jti_not_replay_witness :
    distinctKeys [(JsonValue.str "c9-jti", (900 : Int))] ∧
    ((900 : Int) ≤ 1000) ∧
    (verifyPayload (samplePayload "c9-jti" 1200 "jamulus/getMode")
      "jamulus/getMode" 1000
      { usedJtis := [(JsonValue.str "c9-jti", 900)], lastCleanup := 970 }).1 ≠
      Except.error VerifyError.alreadyUsed :=
  ⟨List.pairwise_singleton _ _, by norm_num,
   verify_stale_jti_not_replay (samplePayload "c9-jti" 1200 "jamulus/getMode")
     "jamulus/getMode" 1000
     { usedJtis := [(JsonValue.str "c9-jti", 900)], lastCleanup := 970 }
     1200 900 (List.pairwise_singleton _ _) rfl (by norm_num) rfl rfl rfl
     (by norm_num)⟩

/-- Claim C10: in every replay-cache state reachable by any sequence of
`verify` calls at nonnegative wall-clock times, every stored entry's
expiry was a number strictly greater than its insertion time, hence is
positive; and the sweep only deletes entries — its output is a sublist of
its input, so no surviving entry's expiry is altered. -/
theorem replay_cache_entries_positive (st : ReplayCacheState)
    (hreach : ReachableState st) :
    (∀ k e, (k, e) ∈ st.usedJtis → 0 < e) ∧
    (∀ t, ((cleanupReplayCache st t).usedJtis).Sublist st.usedJtis) := by
  refine ⟨?_, fun t => cleanup_sublist st t⟩
  induction hreach with
  | init => intro k e h; simp at h
  | step st₀ p m now hr hnow ih =>
      intro k e hmem
      rcases verifyPayload_state_cases p m now st₀ with
        hcase | hcase | ⟨k₀, e₀, hexp, hlt, hcase⟩
      · rw [hcase] at hmem
        exact ih k e hmem
      · rw [hcase] at hmem
        exact ih k e ((cleanup_sublist st₀ now).subset hmem)
      · rw [hcase] at hmem
        rcases mapSet_entries k₀ e₀ _ (k, e) hmem with h₁ | h₁
        · have he : e = e₀ := congrArg Prod.snd h₁
          omega
        · exact ih k e ((cleanup_sublist st₀ now).subset h₁)

/-- Witness for claim C10 at a concrete reachable state: the state left by
one successful verification at `now = 100` holds the single entry
`w-jti → 200`, every entry of which has a positive expiry. -/
theorem replay_cache_entries_positive_witness :
    ReachableState
      { usedJtis := [(JsonValue.str "w-jti", (200 : Int))], lastCleanup := 100 } ∧
    ((∀ k e, (k, e) ∈
        ({ usedJtis := [(JsonValue.str "w-jti", (200 : Int))],
           lastCleanup := 100 } : ReplayCacheState).usedJtis → 0 < e) ∧
     (∀ t, ((cleanupReplayCache
        { usedJtis := [(JsonValue.str "w-jti", (200 : Int))],
          lastCleanup := 100 } t).usedJtis).Sublist
        [(JsonValue.str "w-jti", (200 : Int))])) := by
  have h1 := ReachableState.step { usedJtis := [], lastCleanup := 0 }
    (samplePayload "w-jti" 200 "jamulus/getMode") "jamulus/getMode" 100
    ReachableState.init (by norm_num)
  have heval : (verifyPayload (samplePayload "w-jti" 200 "jamulus/getMode")
      "jamulus/getMode" 100 { usedJtis := [], lastCleanup := 0 }).2 =
      { usedJtis := [(JsonValue.str "w-jti", (200 : Int))],
        lastCleanup := 100 } := rfl
  rw [heval] at h1
  exact ⟨h1, replay_cache_entries_positive _ h1⟩

/-- Claim C3: whenever the backend client's `request` has successfully
opened a transport connection (`connectOk = true`) and the invocation
completes — success, auth rejection, stream error, or a backend `error`
response returned to the caller — `socket.end()` has run: the connection
is closed on every completing exit path. -/
theorem client_closes_connection (events : List StreamEvent)
    (authId mainId method secret : String) (params : JsonValue)
    (hdone : (clientRequest true events authId mainId method
      params secret).outcome ≠ none) :
    (clientRequest true events authId mainId method params secret).closed
      = true ∧
    (clientRequest true events authId mainId method params secret).opened
      = true := by
  rcases h1 : awaitResponse authId events with _ | ⟨x, rest⟩
  · simp [clientRequest, h1] at hdone
  · rcases x with u | a
    · simp [clientRequest, h1]
    · rcases ha : a.error with _ | err
      · rcases h2 : awaitResponse mainId rest with _ | ⟨y, rest'⟩
        · simp [clientRequest, h1, ha, h2] at hdone
        · rcases y with u | r <;> simp [clientRequest, h1, ha, h2]
      · simp [clientRequest, h1, ha]

/-- Witness for claim C3 at a concrete input: the backend answers the auth
envelope with an `error` response for the caller's call; the invocation
completes and the connection has been closed. -/
theorem client_closes_connection_witness :
    (clientRequest true [StreamEvent.frame authOkFrame, StreamEvent.frame mainErrFrame]
      "A" "X" "jamulus/getMode" (JsonValue.obj []) "hunter2").outcome ≠ none ∧
    ((clientRequest true [StreamEvent.frame authOkFrame, StreamEvent.frame mainErrFrame]
      "A" "X" "jamulus/getMode" (JsonValue.obj []) "hunter2").closed = true ∧
     (clientRequest true [StreamEvent.frame authOkFrame, StreamEvent.frame mainErrFrame]
      "A" "X" "jamulus/getMode" (JsonValue.obj []) "hunter2").opened = true) :=
  ⟨by simp [clientRequest, awaitResponse, authOkFrame, mainErrFrame, authEnvelope],
   client_closes_connection [StreamEvent.frame authOkFrame, StreamEvent.frame mainErrFrame]
     "A" "X" "jamulus/getMode" "hunter2" (JsonValue.obj [])
     (by simp [clientRequest, awaitResponse, authOkFrame, mainErrFrame, authEnvelope])⟩

/-- Claim C4: when the response matching the auth envelope's id carries an
`error` member, `request` fails with the auth error whose message contains
the backend's error message, and the caller's envelope is never written:
only the auth envelope was sent on that connection. -/
theorem client_auth_error_no_main_send (events : List StreamEvent)
    (authId mainId method secret : String) (params : JsonValue)
    (r : RpcResponse) (rest : List StreamEvent) (err : RpcErrorObj)
    (hawait : awaitResponse authId events = some (Except.ok r, rest))
    (herr : r.error = some err) :
    (clientRequest true events authId mainId method params secret).outcome =
      some (Except.error (ClientError.authFailure
        ("Unable to authenticate: " ++ err.message))) ∧
    (∃ pre post, "Unable to authenticate: " ++ err.message =
      pre ++ err.message ++ post) ∧
    (clientRequest true events authId mainId method params secret).sent =
      [authEnvelope secret authId] := by
  refine ⟨?_, ⟨"Unable to authenticate: ", "", by simp⟩, ?_⟩ <;>
    simp [clientRequest, hawait, herr]

/-- Witness for claim C4 at a concrete input: the backend rejects the auth
envelope with `bad secret`; the call fails with the auth error containing
that message and only the auth envelope was sent. -/
theorem client_auth_error_no_main_send_witness :
    awaitResponse "A" [StreamEvent.frame badSecretFrame] =
      some (Except.ok badSecretFrame, []) ∧
    badSecretFrame.error = some { code := -32000, message := "bad secret" } ∧
    ((clientRequest true [StreamEvent.frame badSecretFrame]
      "A" "X" "jamulus/getMode" (JsonValue.obj []) "wrong").outcome =
      some (Except.error (ClientError.authFailure
        ("Unable to authenticate: " ++ "bad secret"))) ∧
     (∃ pre post, "Unable to authenticate: " ++ "bad secret" =
       pre ++ "bad secret" ++ post) ∧
     (clientRequest true [StreamEvent.frame badSecretFrame]
      "A" "X" "jamulus/getMode" (JsonValue.obj []) "wrong").sent =
      [authEnvelope "wrong" "A"]) :=
  ⟨rfl, rfl,
   client_auth_error_no_main_send [StreamEvent.frame badSecretFrame]
     "A" "X" "jamulus/getMode" "wrong" (JsonValue.obj []) badSecretFrame []
     { code := -32000, message := "bad secret" } rfl rfl⟩

/-- Claim C5: after a successful auth handshake, the response whose id
matches the caller's envelope is returned verbatim — whether it carries
`result` or `error`, it is data passed through, never a client-side
failure. -/
theorem client_returns_backend_response_verbatim (events : List StreamEvent)
    (authId mainId method secret : String) (params : JsonValue)
    (a : RpcResponse) (rest : List StreamEvent)
    (resp : RpcResponse) (rest' : List StreamEvent)
    (hauth : awaitResponse authId events = some (Except.ok a, rest))
    (hok : a.error = none)
    (hmain : awaitResponse mainId rest = some (Except.ok resp, rest')) :
    (clientRequest true events authId mainId method params secret).outcome =
      some (Except.ok resp) := by
  simp [clientRequest, hauth, hok, hmain]

/-- Witness for claim C5 at a concrete input: the backend answers the
caller's envelope with a JSON-RPC `error` response; the client returns
that exact response object as data. -/
theorem client_returns_backend_response_verbatim_witness :
    awaitResponse "A" [StreamEvent.frame authOkFrame, StreamEvent.frame mainErrFrame] =
      some (Except.ok authOkFrame, [StreamEvent.frame mainErrFrame]) ∧
    authOkFrame.error = none ∧
    awaitResponse "X" [StreamEvent.frame mainErrFrame] =
      some (Except.ok mainErrFrame, []) ∧
    (clientRequest true [StreamEvent.frame authOkFrame, StreamEvent.frame mainErrFrame]
      "A" "X" "jamulus/getMode" (JsonValue.obj []) "hunter2").outcome =
      some (Except.ok mainErrFrame) :=
  ⟨rfl, rfl, rfl,
   client_returns_backend_response_verbatim
     [StreamEvent.frame authOkFrame, StreamEvent.frame mainErrFrame]
     "A" "X" "jamulus/getMode" "hunter2" (JsonValue.obj [])
     authOkFrame [StreamEvent.frame mainErrFrame] mainErrFrame [] rfl rfl rfl⟩

/-- Claim C7 counterexample: a framed response whose id (`B`) matches no
outstanding envelope arrives before the matching responses; the claim says
the call must fail with a ProtocolError-class failure, but the call
succeeds and returns the caller's matching response. -/
theorem stray_frame_call_still_succeeds :
    (clientRequest true
      [StreamEvent.frame strayFrame, StreamEvent.frame authOkFrame,
       StreamEvent.frame mainOkFrame]
      "A" "X" "jamulus/getMode" (JsonValue.obj []) "hunter2").outcome =
      some (Except.ok mainOkFrame) := by
  rfl

/-- Claim C7 (amended): while the client waits for the response to its one
outstanding envelope, a framed response with a non-matching id is simply
ignored — not buffered, and not an error: the wait continues exactly as if
the stray frame had never arrived. -/
theorem awaitResponse_skips_nonmatching (id : String) (r : RpcResponse)
    (events : List StreamEvent) (h : r.id ≠ id) :
    awaitResponse id (StreamEvent.frame r :: events) =
      awaitResponse id events := by
  simp [awaitResponse, h]

/-- Witness for the amended claim C7 at a concrete input: the stray frame
`B` in front of the auth response is skipped. -/
theorem awaitResponse_skips_nonmatching_witness :
    strayFrame.id ≠ "A" ∧
    awaitResponse "A" (StreamEvent.frame strayFrame ::
        [StreamEvent.frame authOkFrame]) =
      awaitResponse "A" [StreamEvent.frame authOkFrame] :=
  ⟨by decide,
   awaitResponse_skips_nonmatching "A" strayFrame
     [StreamEvent.frame authOkFrame] (by decide)⟩

set_option maxRecDepth 16384 in
/-- Claim C8 counterexample: (i) the decode of the `/key` file's contents
is a PEM key, so the claim's variant (a) — re-interpreting file contents
as inline or base64 PEM — would accept it, yet the loader fails with the
file-source error (it never attempts base64 on file contents); and (ii) a
JSON Web Key input, accepted by the claim's variant (d), fails with the
inline-source error (the code has no JWK support). -/
theorem readPublicKey_no_file_recursion_no_jwk :
    isPemPublicKey (sampleB64Decode samplePemBase64) = true ∧
    readPublicKey keyFileSystem sampleB64Decode "/key" =
      Except.error KeyFormatError.fileNotPem ∧
    readPublicKey keyFileSystem sampleB64Decode sampleJwk =
      Except.error KeyFormatError.invalidFormat := by
  refine ⟨?_, ?_, ?_⟩ <;> rfl

/-- Claim C8 (amended): the loader resolves, in fixed order with the first
match winning: (a) an absolute path to an existing file, whose trimmed
contents must themselves be inline PEM (no recursion into base64), else
the file-source `KeyFormatError`; (b) inline PEM text; (c) base64 text
decoding to PEM; there is no JSON Web Key support, and when nothing
matches it fails with the inline-source `KeyFormatError`. `readPublicKey`
agrees with this attempt-list reading (`resolveKeySource`) on every input.
-/
theorem readPublicKey_matches_amended_loader
    (fileSystem : String → Option String) (b64decode : String → String)
    (value : String) :
    readPublicKey fileSystem b64decode value =
      (resolveKeySource fileSystem b64decode value).map KeySource.pem := by
  unfold readPublicKey resolveKeySource
  by_cases habs : jsStartsWith (jsTrim value) "/" = true
  · rcases hfs : fileSystem (jsTrim value) with _ | raw
    · simp only [habs, if_true, hfs, Option.isSome_none, Bool.false_eq_true,
        and_false, dite_false]
      split_ifs <;> simp_all [KeySource.pem, Except.map]
    · simp only [habs, if_true, hfs, Option.isSome_some, and_true, dite_true,
        Option.get_some]
      split_ifs <;> simp_all [KeySource.pem, Except.map]
  · simp only [habs, if_false, Bool.false_eq_true, false_and, dite_false]
    split_ifs <;> simp_all [KeySource.pem, Except.map]
